import Mathlib

set_option maxHeartbeats 1000000

/-!
Verification of the Host-AI agent session engine: a shallow embedding of the
lead-priority scorer (`calculateLeadScore`), the knowledge-retrieval scorer
(`selectRelevantSnippets`), the live-session message handler (audio
scheduling, transcript commits, interruption handling), the end-call
heuristic, the post-call analysis pipeline (`processPostCall`) and the lead
update path (`handleUpdateLead`), together with theorems checking the
documented contracts against these definitions.
-/

open scoped List

namespace HostAI

/-- Call status of a lead (`CallStatus` enum in `types.ts`). -/
inductive CallStatus where
  | PENDING
  | IN_PROGRESS
  | COMPLETED
  | FAILED
  | BOOKED
  deriving DecidableEq, Repr

/-- Sentiment labels attached to a lead (`'Positive' | 'Neutral' | 'Negative'`). -/
inductive Sentiment where
  | Positive
  | Neutral
  | Negative
  deriving DecidableEq, Repr

/-- Speaker role of a transcript entry (`'user' | 'model'` in `types.ts`). -/
inductive Role where
  | user
  | model
  deriving DecidableEq, Repr

/-- One committed transcript entry (`TranscriptEntry` in `types.ts`). -/
structure TranscriptEntry where
  role : Role
  text : String
  timestamp : String
  deriving DecidableEq, Repr

/-- Knowledge-snippet category (`'objection_handling' | 'value_proposition' | 'closing_technique'`). -/
inductive Category where
  | objection_handling
  | value_proposition
  | closing_technique
  deriving DecidableEq, Repr

/-- A knowledge snippet (`KnowledgeSnippet` in `types.ts`). -/
structure KnowledgeSnippet where
  id : String
  category : Category
  content : String
  sourceRestaurant : String
  timestamp : String
  deriving DecidableEq, Repr

/-- A lead record (`Lead` in `types.ts`).  The price range is kept as a raw
string because `calculateLeadScore` switches on it with a default branch. -/
structure Lead where
  id : String
  restaurantName : String
  contactName : String
  phone : String
  status : CallStatus
  cuisine : String
  location : String
  priceRange : String
  lastContacted : Option String
  notes : Option String
  sentiment : Option Sentiment
  transcript : Option (List TranscriptEntry)
  score : Int
  recording : Option String
  deriving DecidableEq, Repr

/-- The lead-priority scorer, translated from `calculateLeadScore` in
`src/App.tsx` (lines 17-48): base by price range, status weight with a
`BOOKED` override to 100, sentiment modifier skipped when booked, then a
clamp to `[0, 100]`. -/
def calculateLeadScore (lead : Lead) : Int :=
  let score : Int := 0
  let score : Int := score +
    (if lead.priceRange = "$$$$" then 40
     else if lead.priceRange = "$$$" then 30
     else if lead.priceRange = "$$" then 20
     else 10)
  let score : Int :=
    match lead.status with
    | .BOOKED => 100
    | .COMPLETED => score + 10
    | .IN_PROGRESS => score + 20
    | .PENDING => score + 0
    | .FAILED => score - 20
  let score : Int :=
    if lead.status ≠ CallStatus.BOOKED then
      match lead.sentiment with
      | some .Positive => score + 30
      | some .Neutral => score + 5
      | some .Negative => score - 30
      | none => score
    else score
  max 0 (min 100 score)

/-- Reference definition written from the wording of the spec (section 4.5 /
claim C1): a base from the price tier, a status modifier where `BOOKED`
overrides the running total to exactly 100, a sentiment modifier applied
only when the status is not `BOOKED`, and a final clamp to `[0, 100]`. -/
def refLeadScore (lead : Lead) : Int :=
  let base : Int :=
    if lead.priceRange = "$$$$" then 40
    else if lead.priceRange = "$$$" then 30
    else if lead.priceRange = "$$" then 20
    else 10
  let afterStatus : Int :=
    match lead.status with
    | .BOOKED => 100
    | .COMPLETED => base + 10
    | .IN_PROGRESS => base + 20
    | .PENDING => base + 0
    | .FAILED => base - 20
  let afterSentiment : Int :=
    if lead.status = CallStatus.BOOKED then afterStatus
    else
      match lead.sentiment with
      | some .Positive => afterStatus + 30
      | some .Neutral => afterStatus + 5
      | some .Negative => afterStatus - 30
      | none => afterStatus + 0
  max 0 (min 100 afterSentiment)

/-- C1: `calculateLeadScore` agrees with the additive reference definition
from the spec, its result always lies in `[0, 100]`, and a `BOOKED` status
forces the result to exactly 100 regardless of sentiment. -/
theorem calculateLeadScore_spec (lead : Lead) :
    calculateLeadScore lead = refLeadScore lead
    ∧ 0 ≤ calculateLeadScore lead
    ∧ calculateLeadScore lead ≤ 100
    ∧ (lead.status = CallStatus.BOOKED → calculateLeadScore lead = 100) := by
  refine ⟨?_, ?_, ?_, ?_⟩
  · unfold calculateLeadScore refLeadScore
    cases hs : lead.status <;> cases hsent : lead.sentiment <;>
      simp [hs, hsent]
  · unfold calculateLeadScore
    exact le_max_left 0 _
  · unfold calculateLeadScore
    exact max_le (by norm_num) (min_le_left 100 _)
  · intro hb
    unfold calculateLeadScore
    simp [hb]

/-- Witness for C1: a concrete booked lead with Negative sentiment still
scores exactly 100. -/
theorem calculateLeadScore_spec_witness :
    calculateLeadScore
      { id := "w1", restaurantName := "Carbone", contactName := "M",
        phone := "", status := CallStatus.BOOKED, cuisine := "Italian",
        location := "Manhattan, NY", priceRange := "$$$$",
        lastContacted := none, notes := none,
        sentiment := some Sentiment.Negative, transcript := none,
        score := 0, recording := none } = 100 :=
  (calculateLeadScore_spec _).2.2.2 rfl

/-- Lead mutation path, translated from `handleUpdateLead` in `src/App.tsx`
(lines 159-166): the incoming lead data is re-scored with
`calculateLeadScore` and replaces the stored lead with the same id. -/
def handleUpdateLead (leads : List Lead) (updatedData : Lead) : List Lead :=
  let scoredLead : Lead := { updatedData with score := calculateLeadScore updatedData }
  leads.map (fun l => if l.id = scoredLead.id then scoredLead else l)

/-- C9: every lead stored through `handleUpdateLead` carries a score
recomputed by `calculateLeadScore` from its own fields, and the result of
the update is independent of whatever score value the caller supplied
(such as the post-call pipeline's hard-coded 100 for a booked outcome). -/
theorem handleUpdateLead_spec (leads : List Lead) (updatedData : Lead) :
    (∀ l ∈ handleUpdateLead leads updatedData, l.id = updatedData.id →
        l = { updatedData with score := calculateLeadScore updatedData })
    ∧ (∀ l ∈ handleUpdateLead leads updatedData, l.id = updatedData.id →
        l.score = calculateLeadScore l)
    ∧ (∀ s : Int, handleUpdateLead leads { updatedData with score := s }
        = handleUpdateLead leads updatedData) := by
  have hmem : ∀ l ∈ handleUpdateLead leads updatedData, l.id = updatedData.id →
      l = { updatedData with score := calculateLeadScore updatedData } := by
    intro l hl hid
    simp only [handleUpdateLead, List.mem_map] at hl
    obtain ⟨a, _, rfl⟩ := hl
    by_cases h : a.id = updatedData.id
    · simp only [if_pos h]
    · rw [if_neg h] at hid ⊢
      exact absurd hid h
  refine ⟨hmem, ?_, ?_⟩
  · intro l hl hid
    rw [hmem l hl hid]
    rfl
  · intro s
    rfl

/-- Witness for C9: a concrete update with a hand-set score of 7 is stored
with the recomputed score instead. -/
theorem handleUpdateLead_spec_witness :
    ({ id := "nyc-1", restaurantName := "Le Bernardin", contactName := "E",
       phone := "", status := CallStatus.BOOKED, cuisine := "French Seafood",
       location := "Manhattan, NY", priceRange := "$$$$",
       lastContacted := none, notes := none, sentiment := some Sentiment.Positive,
       transcript := none,
       score := calculateLeadScore
         { id := "nyc-1", restaurantName := "Le Bernardin", contactName := "E",
           phone := "", status := CallStatus.BOOKED, cuisine := "French Seafood",
           location := "Manhattan, NY", priceRange := "$$$$",
           lastContacted := none, notes := none, sentiment := some Sentiment.Positive,
           transcript := none, score := 7, recording := none },
       recording := none } : Lead).score
      = calculateLeadScore
        { id := "nyc-1", restaurantName := "Le Bernardin", contactName := "E",
          phone := "", status := CallStatus.BOOKED, cuisine := "French Seafood",
          location := "Manhattan, NY", priceRange := "$$$$",
          lastContacted := none, notes := none, sentiment := some Sentiment.Positive,
          transcript := none,
          score := calculateLeadScore
            { id := "nyc-1", restaurantName := "Le Bernardin", contactName := "E",
              phone := "", status := CallStatus.BOOKED, cuisine := "French Seafood",
              location := "Manhattan, NY", priceRange := "$$$$",
              lastContacted := none, notes := none, sentiment := some Sentiment.Positive,
              transcript := none, score := 7, recording := none },
          recording := none } :=
  (handleUpdateLead_spec
    [{ id := "nyc-1", restaurantName := "Le Bernardin", contactName := "E",
       phone := "", status := CallStatus.PENDING, cuisine := "French Seafood",
       location := "Manhattan, NY", priceRange := "$$$$",
       lastContacted := none, notes := none, sentiment := none,
       transcript := none, score := 40, recording := none }]
    { id := "nyc-1", restaurantName := "Le Bernardin", contactName := "E",
      phone := "", status := CallStatus.BOOKED, cuisine := "French Seafood",
      location := "Manhattan, NY", priceRange := "$$$$",
      lastContacted := none, notes := none, sentiment := some Sentiment.Positive,
      transcript := none, score := 7, recording := none }).2.1 _ (by decide) rfl

/-- Lower-case a string character by character: the JavaScript
`toLowerCase` calls of the retrieval scorer. -/
def lower (s : String) : String := ⟨s.data.map Char.toLower⟩

/-- Substring test on the underlying character lists: `includes s pat`
models the JavaScript `s.includes(pat)`. -/
def includes (s pat : String) : Bool :=
  s.data.tails.any (fun t => pat.data.isPrefixOf t)

/-- The fixed high-value vocabulary of `selectRelevantSnippets` (line 63). -/
def keywords : List String :=
  ["busy", "manager", "expensive", "cost", "price", "hostess", "email",
   "send info", "not interested", "later"]

/-- The lead's combined lower-cased context: CRM notes, cuisine and
location, then the text of any prior transcript (lines 57-60 of the live
agent component). -/
def fullContext (lead : Lead) : String :=
  let contextText :=
    lower ((lead.notes.getD "") ++ " " ++ lead.cuisine ++ " " ++ lead.location)
  let historyText :=
    match lead.transcript with
    | some ts => lower (String.intercalate " " (ts.map (fun t => t.text)))
    | none => ""
  contextText ++ " " ++ historyText

/-- Per-snippet retrieval score, translated from the scoring closure inside
`selectRelevantSnippets` (rules A-E, lines 68-101 of the live agent
component).  The truthiness test `lead.cuisine &&` of rule B becomes an
explicit non-emptiness check. -/
def snippetScore (lead : Lead) (snippet : KnowledgeSnippet) : Nat :=
  let contentLower := lower snippet.content
  let score : Nat := 0
  let score : Nat :=
    if snippet.sourceRestaurant = lead.restaurantName then score + 50 else score
  let score : Nat :=
    if lead.cuisine ≠ "" ∧ includes contentLower (lower lead.cuisine) then
      score + 15
    else score
  let score : Nat :=
    keywords.foldl
      (fun acc word =>
        if includes (fullContext lead) word ∧ includes contentLower word then
          acc + 10
        else acc) score
  let score : Nat :=
    if lead.status = CallStatus.FAILED ∧ snippet.category = Category.objection_handling then
      score + 5
    else score
  let score : Nat :=
    if lead.priceRange = "$$$$" ∧ snippet.category = Category.value_proposition then
      score + 5
    else score
  score + 1

/-- The JavaScript sort comparator `(a, b) => b.score - a.score`: `a` may
precede `b` exactly when `a`'s score is at least `b`'s. -/
def scoreLe (a b : KnowledgeSnippet × Nat) : Bool := decide (b.2 ≤ a.2)

/-- RAG retrieval, translated from `selectRelevantSnippets` (lines 54-110):
score every snippet, stable-sort by descending score, keep only positive
scores, take the top three. -/
def selectRelevantSnippets (lead : Lead) (kb : List KnowledgeSnippet) :
    List KnowledgeSnippet :=
  if kb.length = 0 then []
  else
    let scoredSnippets := kb.map (fun snippet => (snippet, snippetScore lead snippet))
    (((scoredSnippets.mergeSort scoreLe).filter
        (fun item => decide (0 < item.2))).take 3).map (fun item => item.1)

/-- Reference definition written literally from the wording of claim C3 /
spec section 4.4: the additive sum of +50 for an exact source-restaurant
match, +15 if the snippet content contains the lead's cuisine keyword
(case-insensitive), +10 per shared high-value keyword, the two +5 category
affinities, and a flat +1. -/
def specSnippetScore (lead : Lead) (snippet : KnowledgeSnippet) : Nat :=
  (if snippet.sourceRestaurant = lead.restaurantName then 50 else 0)
  + (if includes (lower snippet.content) (lower lead.cuisine) then 15 else 0)
  + 10 * (keywords.filter
      (fun word => includes (fullContext lead) word
        && includes (lower snippet.content) word)).length
  + (if lead.status = CallStatus.FAILED ∧ snippet.category = Category.objection_handling
      then 5 else 0)
  + (if lead.priceRange = "$$$$" ∧ snippet.category = Category.value_proposition
      then 5 else 0)
  + 1

/-- The amended reference sum for claim C3: identical to
`specSnippetScore` except that the +15 cuisine bonus additionally requires
the lead's cuisine to be non-empty, matching the truthiness guard
`lead.cuisine &&` in the source. -/
def amendedSnippetScore (lead : Lead) (snippet : KnowledgeSnippet) : Nat :=
  (if snippet.sourceRestaurant = lead.restaurantName then 50 else 0)
  + (if lead.cuisine ≠ "" ∧ includes (lower snippet.content) (lower lead.cuisine)
      then 15 else 0)
  + 10 * (keywords.filter
      (fun word => includes (fullContext lead) word
        && includes (lower snippet.content) word)).length
  + (if lead.status = CallStatus.FAILED ∧ snippet.category = Category.objection_handling
      then 5 else 0)
  + (if lead.priceRange = "$$$$" ∧ snippet.category = Category.value_proposition
      then 5 else 0)
  + 1

theorem foldl_if_add (P : String → Prop) [DecidablePred P] (ws : List String) (a : Nat) :
    ws.foldl (fun acc w => if P w then acc + 10 else acc) a
      = a + 10 * (ws.filter (fun w => decide (P w))).length := by
  induction ws generalizing a with
  | nil => simp
  | cons w ws ih =>
    by_cases h : P w
    · rw [List.foldl_cons, if_pos h, ih,
        List.filter_cons_of_pos (by simpa using h), List.length_cons]
      omega
    · simp [h, ih]

/-- Lead with an empty cuisine string, used to separate the source scorer
from the literal claim-C3 sum. -/
def c3Lead : Lead :=
  { id := "c3", restaurantName := "A", contactName := "", phone := "",
    status := CallStatus.PENDING, cuisine := "", location := "",
    priceRange := "$$", lastContacted := none, notes := none,
    sentiment := none, transcript := none, score := 0, recording := none }

/-- Snippet paired with `c3Lead` in the claim-C3 counterexample. -/
def c3Snippet : KnowledgeSnippet :=
  { id := "s", category := Category.closing_technique, content := "",
    sourceRestaurant := "B", timestamp := "" }

/-- Counterexample to C3 as stated: on a lead whose cuisine string is
empty, the code skips the +15 cuisine bonus (the `lead.cuisine &&`
truthiness guard) although every string contains the empty string, so the
code's score differs from the claim's additive sum. -/
theorem snippetScore_claim_counterexample :
    snippetScore c3Lead c3Snippet ≠ specSnippetScore c3Lead c3Snippet := by
  decide

/-- C3 (amended): the retrieval score is the additive sum of the claim with
the +15 cuisine bonus requiring a non-empty cuisine; consequently a
single-snippet knowledge base whose snippet matches the lead's restaurant
name is returned ranked first with score at least 51. -/
theorem snippetScore_spec (lead : Lead) (snippet : KnowledgeSnippet) :
    snippetScore lead snippet = amendedSnippetScore lead snippet
    ∧ (snippet.sourceRestaurant = lead.restaurantName →
        selectRelevantSnippets lead [snippet] = [snippet]
        ∧ 51 ≤ snippetScore lead snippet) := by
  have heq : snippetScore lead snippet = amendedSnippetScore lead snippet := by
    simp only [snippetScore, amendedSnippetScore]
    rw [foldl_if_add
      (fun word => includes (fullContext lead) word ∧ includes (lower snippet.content) word)]
    simp only [Bool.decide_and, Bool.decide_coe]
    split_ifs <;> omega
  refine ⟨heq, fun hsr => ?_⟩
  have h51 : 51 ≤ snippetScore lead snippet := by
    rw [heq]
    unfold amendedSnippetScore
    rw [if_pos hsr]
    split_ifs <;> omega
  refine ⟨?_, h51⟩
  have hpos : 0 < snippetScore lead snippet := by omega
  simp [selectRelevantSnippets, List.mergeSort_singleton, hpos]

/-- Snippet whose source restaurant matches `c3Lead`, for the C3 witness. -/
def c3MatchSnippet : KnowledgeSnippet :=
  { id := "k", category := Category.closing_technique,
    content := "ask for the demo", sourceRestaurant := "A", timestamp := "" }

/-- Witness for C3: on a concrete lead and matching snippet the retrieval
returns the snippet ranked first with score at least 51. -/
theorem snippetScore_spec_witness :
    selectRelevantSnippets c3Lead [c3MatchSnippet] = [c3MatchSnippet]
    ∧ 51 ≤ snippetScore c3Lead c3MatchSnippet :=
  (snippetScore_spec c3Lead c3MatchSnippet).2 rfl

/-- C10: the flat +1 tie-break gives every snippet a retrieval score of at
least 1, so the `score > 0` filter excludes nothing and the retrieval
returns exactly `min 3 kb.length` snippets. -/
theorem selectRelevantSnippets_count (lead : Lead) (kb : List KnowledgeSnippet) :
    (∀ snippet, 1 ≤ snippetScore lead snippet)
    ∧ (selectRelevantSnippets lead kb).length = min 3 kb.length := by
  have hscore : ∀ snippet, 1 ≤ snippetScore lead snippet := by
    intro snippet
    unfold snippetScore
    exact Nat.le_add_left 1 _
  refine ⟨hscore, ?_⟩
  by_cases h0 : kb.length = 0
  · rw [List.length_eq_zero.mp h0]
    simp [selectRelevantSnippets]
  · simp only [selectRelevantSnippets, if_neg h0]
    rw [List.filter_eq_self.mpr]
    · simp
    · intro p hp
      rw [List.mem_mergeSort, List.mem_map] at hp
      obtain ⟨s, _, rfl⟩ := hp
      simpa using hscore s

/-- C2: retrieval returns at most three snippets, ordered by non-increasing
retrieval score, none of them with score ≤ 0; snippets of equal score keep
their relative knowledge-base order (for every score value, the returned
snippets with that score form a sublist of the knowledge base filtered to
that score); and identical inputs yield identical outputs. -/
theorem selectRelevantSnippets_spec (lead : Lead) (kb : List KnowledgeSnippet) :
    (selectRelevantSnippets lead kb).length ≤ 3
    ∧ (selectRelevantSnippets lead kb).Pairwise
        (fun a b => snippetScore lead b ≤ snippetScore lead a)
    ∧ (∀ s ∈ selectRelevantSnippets lead kb, 0 < snippetScore lead s)
    ∧ (∀ v, (selectRelevantSnippets lead kb).filter
          (fun s => decide (snippetScore lead s = v))
        <+ kb.filter (fun s => decide (snippetScore lead s = v)))
    ∧ (∀ lead2 kb2, lead = lead2 → kb = kb2 →
        selectRelevantSnippets lead kb = selectRelevantSnippets lead2 kb2) := by
  have hdet : ∀ lead2 kb2, lead = lead2 → kb = kb2 →
      selectRelevantSnippets lead kb = selectRelevantSnippets lead2 kb2 := by
    rintro lead2 kb2 rfl rfl; rfl
  by_cases h0 : kb.length = 0
  · rw [List.length_eq_zero.mp h0]
    exact ⟨by simp [selectRelevantSnippets], by simp [selectRelevantSnippets],
      by simp [selectRelevantSnippets],
      fun v => by simp [selectRelevantSnippets],
      by rw [← List.length_eq_zero.mp h0]; exact hdet⟩
  · have htrans : ∀ a b c : KnowledgeSnippet × Nat,
        scoreLe a b → scoreLe b c → scoreLe a c := by
      intro a b c hab hbc
      simp only [scoreLe, decide_eq_true_eq] at *
      omega
    have htotal : ∀ a b : KnowledgeSnippet × Nat, scoreLe a b || scoreLe b a := by
      intro a b
      simp only [scoreLe]
      rcases Nat.le_total b.2 a.2 with h | h <;> simp [h]
    have hsel : selectRelevantSnippets lead kb
        = ((((kb.map (fun snippet => (snippet, snippetScore lead snippet))).mergeSort
            scoreLe).filter (fun item => decide (0 < item.2))).take 3).map
            (fun item => item.1) := by
      simp only [selectRelevantSnippets, if_neg h0]
    set L := kb.map (fun snippet => (snippet, snippetScore lead snippet)) with hLdef
    set S := L.mergeSort scoreLe with hSdef
    set T := (S.filter (fun item => decide (0 < item.2))).take 3 with hTdef
    have hTS : T <+ S := (List.take_sublist _ _).trans (List.filter_sublist _)
    have hmemL : ∀ q ∈ L, q.2 = snippetScore lead q.1 := by
      intro q hq
      rw [hLdef, List.mem_map] at hq
      obtain ⟨s, _, rfl⟩ := hq
      rfl
    have hmemT : ∀ q ∈ T, q.2 = snippetScore lead q.1 := by
      intro q hq
      exact hmemL q (List.mem_mergeSort.mp (hTS.subset hq))
    refine ⟨?_, ?_, ?_, ?_, hdet⟩
    · rw [hsel, List.length_map]
      exact List.length_take_le _ _
    · rw [hsel, List.pairwise_map]
      have hpwS : S.Pairwise (fun a b => scoreLe a b) :=
        List.sorted_mergeSort htrans htotal L
      have hpwT : T.Pairwise (fun a b => scoreLe a b) := hpwS.sublist hTS
      refine hpwT.imp_of_mem ?_
      intro a b ha hb hab
      have h2 : b.2 ≤ a.2 := by simpa [scoreLe] using hab
      rw [hmemT a ha, hmemT b hb] at h2
      exact h2
    · intro s hs
      rw [hsel, List.mem_map] at hs
      obtain ⟨q, hq, rfl⟩ := hs
      have hqF : q ∈ S.filter (fun item => decide (0 < item.2)) :=
        List.mem_of_mem_take hq
      have := (List.mem_filter.mp hqF).2
      rw [← hmemT q hq]
      simpa using this
    · intro v
      have hfm : (selectRelevantSnippets lead kb).filter
            (fun s => decide (snippetScore lead s = v))
          = (T.filter (fun q => decide (q.2 = v))).map (fun item => item.1) := by
        rw [hsel, List.filter_map]
        congr 1
        apply List.filter_congr
        intro q hq
        simp only [Function.comp]
        rw [hmemT q hq]
      have hXeq : S.filter (fun q => decide (q.2 = v))
          = L.filter (fun q => decide (q.2 = v)) := by
        have hXsub : L.filter (fun q => decide (q.2 = v)) <+ L :=
          List.filter_sublist _
        have hXpw : (L.filter (fun q => decide (q.2 = v))).Pairwise
            (fun a b => scoreLe a b) := by
          apply List.pairwise_of_forall_mem_list
          intro a ha b hb
          have ha2 : a.2 = v := by simpa using (List.mem_filter.mp ha).2
          have hb2 : b.2 = v := by simpa using (List.mem_filter.mp hb).2
          simp [scoreLe, ha2, hb2]
        have hXS : L.filter (fun q => decide (q.2 = v)) <+ S :=
          List.sublist_mergeSort htrans htotal hXpw hXsub
        have hXX : (L.filter (fun q => decide (q.2 = v))).filter
              (fun q => decide (q.2 = v))
            = L.filter (fun q => decide (q.2 = v)) := by
          apply List.filter_eq_self.mpr
          intro q hq
          exact (List.mem_filter.mp hq).2
        have hfX : L.filter (fun q => decide (q.2 = v))
            <+ S.filter (fun q => decide (q.2 = v)) := by
          rw [← hXX]
          exact hXS.filter _
        have hperm : S.filter (fun q => decide (q.2 = v))
            ~ L.filter (fun q => decide (q.2 = v)) :=
          (List.mergeSort_perm L scoreLe).filter _
        exact (hfX.eq_of_length hperm.length_eq.symm).symm
      have hLfil : L.filter (fun q => decide (q.2 = v))
          = (kb.filter (fun s => decide (snippetScore lead s = v))).map
              (fun snippet => (snippet, snippetScore lead snippet)) := by
        rw [hLdef, List.filter_map]
        rfl
      have hback : ((kb.filter (fun s => decide (snippetScore lead s = v))).map
            (fun snippet => (snippet, snippetScore lead snippet))).map
            (fun item => item.1)
          = kb.filter (fun s => decide (snippetScore lead s = v)) := by
        rw [List.map_map]
        exact List.map_id _
      rw [hfm, ← hback, ← hLfil, ← hXeq]
      exact ((hTS.filter _).map _)

/-- Lead used in the C2 witness. -/
def c2Lead : Lead :=
  { id := "c2", restaurantName := "Atomix", contactName := "J", phone := "",
    status := CallStatus.PENDING, cuisine := "korean", location := "ny",
    priceRange := "$$$", lastContacted := none, notes := none,
    sentiment := none, transcript := none, score := 0, recording := none }

/-- Snippet used in the C2 witness. -/
def c2Snippet : KnowledgeSnippet :=
  { id := "s2", category := Category.value_proposition,
    content := "mention the overflow calls", sourceRestaurant := "Cote",
    timestamp := "" }

/-- Witness for C2: on a concrete singleton knowledge base the retrieval
returns at most three snippets and the returned snippet has positive
score. -/
theorem selectRelevantSnippets_spec_witness :
    (selectRelevantSnippets c2Lead [c2Snippet]).length ≤ 3
    ∧ 0 < snippetScore c2Lead c2Snippet := by
  have hpos : 0 < snippetScore c2Lead c2Snippet := by decide
  have hsel : selectRelevantSnippets c2Lead [c2Snippet] = [c2Snippet] := by
    simp [selectRelevantSnippets, List.mergeSort_singleton, hpos]
  exact ⟨(selectRelevantSnippets_spec c2Lead [c2Snippet]).1,
    (selectRelevantSnippets_spec c2Lead [c2Snippet]).2.2.1 c2Snippet
      (by rw [hsel]; exact List.mem_singleton.mpr rfl)⟩

/-- A scheduled playback source: its start time and duration in seconds. -/
structure Source where
  start : ℚ
  duration : ℚ
  deriving DecidableEq

/-- Playback-scheduler state: the forward-only scheduling clock
`nextStartTimeRef` and the active source set `sourcesRef` (lines 148-149
of the live agent component). -/
structure PlaybackState where
  nextStartTime : ℚ
  sources : List Source
  deriving DecidableEq

/-- Audio-path events seen by the `onmessage` handler and the per-source
`ended` listener: an inbound audio buffer of duration `dur` decoded while
the output clock reads `now`, an interruption signal, and a source
finishing playback. -/
inductive AudioEvent where
  | audio (now dur : ℚ)
  | interrupted
  | ended (s : Source)
  deriving DecidableEq

/-- One step of the audio path of `onmessage` (lines 441-471): an inbound
buffer is scheduled at `max nextStartTime now` and the clock advances by
its duration; an interruption stops every active source, clears the set
and resets the clock to 0; `ended` removes a finished source. -/
def playbackStep (e : AudioEvent) (st : PlaybackState) : PlaybackState :=
  match e with
  | .audio now dur =>
      let s := max st.nextStartTime now
      { nextStartTime := s + dur, sources := ⟨s, dur⟩ :: st.sources }
  | .interrupted => { nextStartTime := 0, sources := [] }
  | .ended s => { st with sources := st.sources.erase s }

/-- Initial playback state of a session (`nextStartTimeRef = 0`, empty
source set). -/
def initPlayback : PlaybackState := { nextStartTime := 0, sources := [] }

/-- The playback state after a sequence of audio-path events. -/
def playbackRun (events : List AudioEvent) : PlaybackState :=
  events.foldl (fun st e => playbackStep e st) initPlayback

/-- Two sources do not overlap when one ends no later than the other
starts. -/
def nonOverlap (a b : Source) : Prop :=
  a.start + a.duration ≤ b.start ∨ b.start + b.duration ≤ a.start

theorem playback_foldl_inv (events : List AudioEvent) (st : PlaybackState)
    (hdur : ∀ now dur, AudioEvent.audio now dur ∈ events → 0 ≤ dur)
    (hpw : st.sources.Pairwise nonOverlap)
    (hbd : ∀ s ∈ st.sources, s.start + s.duration ≤ st.nextStartTime) :
    (events.foldl (fun st e => playbackStep e st) st).sources.Pairwise nonOverlap
    ∧ ∀ s ∈ (events.foldl (fun st e => playbackStep e st) st).sources,
        s.start + s.duration
          ≤ (events.foldl (fun st e => playbackStep e st) st).nextStartTime := by
  induction events generalizing st with
  | nil => exact ⟨hpw, hbd⟩
  | cons e es ih =>
    rw [List.foldl_cons]
    refine ih (playbackStep e st) (fun now dur h => hdur now dur (List.mem_cons_of_mem e h))
      ?_ ?_
    · cases e with
      | audio now dur =>
        simp only [playbackStep]
        refine List.Pairwise.cons ?_ hpw
        intro b hb
        exact Or.inr ((hbd b hb).trans (le_max_left _ _))
      | interrupted => exact List.Pairwise.nil
      | ended s => exact hpw.sublist (List.erase_sublist _ _)
    · cases e with
      | audio now dur =>
        have hd : 0 ≤ dur := hdur now dur (List.mem_cons_self _ _)
        simp only [playbackStep]
        intro s hs
        rcases List.mem_cons.mp hs with rfl | hs
        · exact le_refl _
        · calc s.start + s.duration ≤ st.nextStartTime := hbd s hs
            _ ≤ max st.nextStartTime now := le_max_left _ _
            _ ≤ max st.nextStartTime now + dur := le_add_of_nonneg_right hd
      | interrupted => intro s hs; simp [playbackStep] at hs
      | ended s =>
        intro q hq
        exact hbd q ((List.erase_sublist _ _).subset hq)

/-- C4: every inbound buffer is scheduled at `max nextStartTime now` and
advances the clock by its duration, so the sources scheduled by any event
sequence are pairwise non-overlapping; an interruption clears all active
sources and resets the clock to 0, after which the next inbound buffer is
scheduled exactly at its arrival time. -/
theorem playbackScheduler_spec (events : List AudioEvent)
    (hdur : ∀ now dur, AudioEvent.audio now dur ∈ events → 0 ≤ dur) :
    (playbackRun events).sources.Pairwise nonOverlap
    ∧ (∀ now dur,
        playbackStep (.audio now dur) (playbackRun events)
          = { nextStartTime := max (playbackRun events).nextStartTime now + dur,
              sources := ⟨max (playbackRun events).nextStartTime now, dur⟩
                :: (playbackRun events).sources })
    ∧ playbackStep .interrupted (playbackRun events)
        = { nextStartTime := 0, sources := [] }
    ∧ (∀ now dur, 0 ≤ now →
        (playbackStep (.audio now dur)
            (playbackStep .interrupted (playbackRun events))).sources
          = [⟨now, dur⟩]) := by
  obtain ⟨hpw, _⟩ := playback_foldl_inv events initPlayback hdur
    List.Pairwise.nil (by intro s hs; simp [initPlayback] at hs)
  refine ⟨hpw, fun now dur => rfl, rfl, fun now dur hnow => ?_⟩
  simp only [playbackStep]
  rw [max_eq_right hnow]

/-- Witness for C4: a concrete two-buffer schedule is non-overlapping and
an interruption resets the scheduler state. -/
theorem playbackScheduler_spec_witness :
    (playbackRun [AudioEvent.audio 0 1, AudioEvent.audio 2 1]).sources.Pairwise nonOverlap
    ∧ playbackStep AudioEvent.interrupted
        (playbackRun [AudioEvent.audio 0 1, AudioEvent.audio 2 1])
      = { nextStartTime := 0, sources := [] } :=
  have h : ∀ now dur,
      AudioEvent.audio now dur ∈ [AudioEvent.audio 0 1, AudioEvent.audio 2 1] → 0 ≤ dur := by
    intro now dur hmem
    rcases List.mem_cons.mp hmem with heq | hmem
    · cases heq; norm_num
    · rcases List.mem_cons.mp hmem with heq | hmem
      · cases heq; norm_num
      · simp at hmem
  ⟨(playbackScheduler_spec [AudioEvent.audio 0 1, AudioEvent.audio 2 1] h).1,
   (playbackScheduler_spec [AudioEvent.audio 0 1, AudioEvent.audio 2 1] h).2.2.1⟩

/-- Transcript-side session state: the committed log (`transcripts`) and
the two per-role partial accumulators (`currentInput`, `currentOutput`). -/
structure SessionState where
  transcripts : List TranscriptEntry
  currentInput : String
  currentOutput : String
  deriving DecidableEq

/-- Remove leading and trailing whitespace: the JavaScript `trim()`. -/
def trim (s : String) : String :=
  ⟨((s.data.dropWhile Char.isWhitespace).reverse.dropWhile Char.isWhitespace).reverse⟩

/-- One inbound server message: the `serverContent` fields consumed by
`onmessage`, plus the wall-clock timestamp string used for commits. -/
structure ServerMessage where
  inputTranscription : Option String
  outputTranscription : Option String
  turnComplete : Bool
  interrupted : Bool
  time : String
  deriving DecidableEq

/-- An input-transcription delta appends to the human accumulator
(line 423). -/
def applyInputDelta (d : Option String) (st : SessionState) : SessionState :=
  match d with
  | some t => { st with currentInput := st.currentInput ++ t }
  | none => st

/-- An output-transcription delta appends to the agent accumulator
(line 426). -/
def applyOutputDelta (d : Option String) (st : SessionState) : SessionState :=
  match d with
  | some t => { st with currentOutput := st.currentOutput ++ t }
  | none => st

/-- The closure environment of the `onmessage` callback: the values of the
`currentInput` and `currentOutput` state bindings captured when
`startSession` registered the callbacks.  These `const` bindings are
captured by value once per session and never change afterwards, unlike the
live React state written by the functional `set...(prev => ...)` delta
updaters. -/
structure ClosureEnv where
  currentInput : String
  currentOutput : String
  deriving DecidableEq, Repr

/-- The turn-complete commit block of `onmessage` (lines 428-438), with the
source's closure semantics: the guards `currentInput.trim()` /
`currentOutput.trim()` and the committed entry texts read the stale
captured bindings `env.currentInput` / `env.currentOutput`, while the
appends `setTranscripts(prev => ...)` and the clears `setCurrentInput('')`
/ `setCurrentOutput('')` write the live state. -/
def commitTurn (env : ClosureEnv) (time : String) (st : SessionState) :
    SessionState :=
  let st1 :=
    if trim env.currentInput ≠ "" then
      { st with
        transcripts := st.transcripts ++ [⟨Role.user, env.currentInput, time⟩],
        currentInput := "" }
    else st
  if trim env.currentOutput ≠ "" then
    { st1 with
      transcripts := st1.transcripts ++ [⟨Role.model, env.currentOutput, time⟩],
      currentOutput := "" }
  else st1

/-- The interruption commit of `onmessage` (lines 472-477), with the
source's closure semantics: `if (currentOutput)` tests the stale captured
binding and the committed text is that stale value plus the `"..."`
truncation marker; the clear writes the live state. -/
def interruptCommit (env : ClosureEnv) (time : String) (st : SessionState) :
    SessionState :=
  if env.currentOutput ≠ "" then
    { st with
      transcripts := st.transcripts ++ [⟨Role.model, env.currentOutput ++ "...", time⟩],
      currentOutput := "" }
  else st

/-- The transcript effects of one `onmessage` call (lines 419-477), in
source order: transcription deltas (functional updaters on live state),
then the turn-complete commit, then the interruption commit (both reading
the captured closure environment `env`). -/
def onmessage (env : ClosureEnv) (msg : ServerMessage) (st : SessionState) :
    SessionState :=
  let st1 := applyInputDelta msg.inputTranscription st
  let st2 := applyOutputDelta msg.outputTranscription st1
  let st3 := if msg.turnComplete then commitTurn env msg.time st2 else st2
  if msg.interrupted then interruptCommit env msg.time st3 else st3

theorem applyInputDelta_transcripts (d : Option String) (st : SessionState) :
    (applyInputDelta d st).transcripts = st.transcripts := by
  cases d <;> rfl

theorem applyOutputDelta_transcripts (d : Option String) (st : SessionState) :
    (applyOutputDelta d st).transcripts = st.transcripts := by
  cases d <;> rfl

/-- C5 (code bug): the turn-complete block reads the closure-captured
session-start bindings, not the live accumulators.  In a fresh session the
captured bindings are empty, so no message sequence ever commits an entry,
and in particular a turn-complete signal arriving while both live
accumulators are non-empty commits nothing and clears nothing — the claim
(and spec section 4.3) instead require each non-empty accumulator to be
committed as one timestamped entry, human before agent, and cleared. -/
theorem turnComplete_stale_commit (msgs : List ServerMessage) (st : SessionState) :
    (msgs.foldl (fun s m => onmessage ⟨"", ""⟩ m s) st).transcripts = st.transcripts
    ∧ trim "hello" ≠ ""
    ∧ onmessage ⟨"", ""⟩
        { inputTranscription := none, outputTranscription := none,
          turnComplete := true, interrupted := false, time := "t0" }
        { transcripts := [], currentInput := "hello", currentOutput := "hi" }
      = { transcripts := [], currentInput := "hello", currentOutput := "hi" } := by
  have hstep : ∀ m s, (onmessage ⟨"", ""⟩ m s).transcripts = s.transcripts := by
    intro m s
    have hg1 : ¬(trim ("" : String) ≠ "") := by decide
    have hg2 : ¬(("" : String) ≠ "") := by decide
    by_cases htc : m.turnComplete <;> by_cases hir : m.interrupted <;>
      simp [onmessage, commitTurn, interruptCommit, htc, hir, hg1, hg2,
        applyInputDelta_transcripts, applyOutputDelta_transcripts]
  refine ⟨?_, by decide, by decide⟩
  induction msgs generalizing st with
  | nil => rfl
  | cons m ms ih =>
    rw [List.foldl_cons]
    exact (ih (onmessage ⟨"", ""⟩ m st)).trans (hstep m st)

/-- C6 (code bug): the interruption block tests the closure-captured agent
binding, not the live accumulator.  In a fresh session the captured binding
is empty, so an interruption leaves the whole transcript state unchanged
regardless of the live agent partial; in particular an interruption
arriving while the live agent accumulator holds non-empty text commits no
entry, appends no truncation marker and clears nothing — the claim instead
requires exactly one committed entry ending in the marker. -/
theorem interruption_stale_commit (st : SessionState) :
    (∀ time : String, onmessage ⟨"", ""⟩
        { inputTranscription := none, outputTranscription := none,
          turnComplete := false, interrupted := true, time := time } st = st)
    ∧ ("Our AI ans" : String) ≠ ""
    ∧ onmessage ⟨"", ""⟩
        { inputTranscription := none, outputTranscription := none,
          turnComplete := false, interrupted := true, time := "t1" }
        { transcripts := [], currentInput := "", currentOutput := "Our AI ans" }
      = { transcripts := [], currentInput := "", currentOutput := "Our AI ans" } :=
  ⟨fun _ => rfl, by decide, rfl⟩

/-- The end-call heuristic of `stopSession` (lines 514-523): status and
sentiment derived from the number of committed transcript entries. -/
def heuristicOutcome (n : Nat) : CallStatus × Sentiment :=
  let newStatus := CallStatus.COMPLETED
  let newSentiment := Sentiment.Neutral
  if n > 6 then (newStatus, Sentiment.Positive)
  else if n < 2 then (CallStatus.FAILED, Sentiment.Negative)
  else (newStatus, newSentiment)

/-- The lead update performed in the recorder's `onloadend` callback of
`stopSession` (lines 525-534): heuristic status and sentiment, the
committed transcript, contact recency and the finalized recording
artifact, all in a single update. -/
def endCallUpdate (lead : Lead) (transcripts : List TranscriptEntry)
    (recording : String) : Lead :=
  { lead with
    status := (heuristicOutcome transcripts.length).1,
    sentiment := some (heuristicOutcome transcripts.length).2,
    transcript := some transcripts,
    lastContacted := some "Just now",
    recording := some recording }

/-- C7: the end-call heuristic maps a committed transcript of length
`n > 6` to COMPLETED/Positive, `n < 2` to FAILED/Negative, and any other
`n` to COMPLETED/Neutral, and the end-call update attaches the heuristic
status, the sentiment, the transcript and the recording artifact to the
lead in the same update. -/
theorem stopSession_heuristic_spec (n : Nat) (lead : Lead)
    (transcripts : List TranscriptEntry) (recording : String) :
    (n > 6 → heuristicOutcome n = (CallStatus.COMPLETED, Sentiment.Positive))
    ∧ (n < 2 → heuristicOutcome n = (CallStatus.FAILED, Sentiment.Negative))
    ∧ (2 ≤ n → n ≤ 6 → heuristicOutcome n = (CallStatus.COMPLETED, Sentiment.Neutral))
    ∧ (endCallUpdate lead transcripts recording).status
        = (heuristicOutcome transcripts.length).1
    ∧ (endCallUpdate lead transcripts recording).sentiment
        = some (heuristicOutcome transcripts.length).2
    ∧ (endCallUpdate lead transcripts recording).transcript = some transcripts
    ∧ (endCallUpdate lead transcripts recording).recording = some recording := by
  refine ⟨fun h => ?_, fun h => ?_, fun h1 h2 => ?_, rfl, rfl, rfl, rfl⟩
  · unfold heuristicOutcome
    rw [if_pos h]
  · unfold heuristicOutcome
    rw [if_neg (by omega), if_pos h]
  · unfold heuristicOutcome
    rw [if_neg (by omega), if_neg (by omega)]

/-- Witness for C7: a seven-entry transcript yields COMPLETED/Positive. -/
theorem stopSession_heuristic_spec_witness :
    heuristicOutcome 7 = (CallStatus.COMPLETED, Sentiment.Positive) :=
  (stopSession_heuristic_spec 7
      { id := "w7", restaurantName := "R", contactName := "", phone := "",
        status := CallStatus.PENDING, cuisine := "", location := "",
        priceRange := "$$$", lastContacted := none, notes := none,
        sentiment := none, transcript := none, score := 0, recording := none }
      [] "rec").1 (by omega)

/-- Result of the classification stage's JSON analysis as consumed by
`processPostCall` (summary, sentiment label, outcome label). -/
structure Classification where
  summary : String
  sentiment : Sentiment
  outcome : String
  deriving DecidableEq

/-- Result of the extraction stage's JSON analysis. -/
structure Extraction where
  found : Bool
  category : Category
  content : String
  deriving DecidableEq

/-- Observable outcome of `processPostCall`: the summary text shown, the
lead update pushed through `onUpdateLead` (if any), the learning status
text, and the snippet pushed through `onLearn` (if any). -/
structure PostCallResult where
  summary : Option String
  leadUpdate : Option Lead
  learningStatus : Option String
  learned : Option KnowledgeSnippet
  deriving DecidableEq

/-- The full transcript assembled at the top of `processPostCall` (lines
234-237): committed entries plus any trailing non-blank partials, with the
literal `'now'` timestamp used by the source. -/
def fullTranscriptOf (st : SessionState) : List TranscriptEntry :=
  st.transcripts
    ++ (if trim st.currentInput ≠ "" then [⟨Role.user, st.currentInput, "now"⟩] else [])
    ++ (if trim st.currentOutput ≠ "" then [⟨Role.model, st.currentOutput, "now"⟩] else [])

/-- The classification stage (the first `try`/`catch` of `processPostCall`,
lines 249-281): on success the parsed summary is shown and a `BOOKED`
outcome triggers one lead update with status BOOKED, the derived sentiment
and a hard-coded score of 100; on failure the summary degrades to the
fixed message and no lead update is made. -/
def classificationStage (classif : Except Unit Classification)
    (hasUpdateLead : Bool) (currentLeadState : Option Lead) :
    Option String × Option Lead :=
  match classif with
  | .ok analysis =>
      (some analysis.summary,
        if analysis.outcome = "BOOKED" ∧ hasUpdateLead then
          match currentLeadState with
          | some l =>
              some { l with
                status := CallStatus.BOOKED
                sentiment := some analysis.sentiment
                score := 100 }
          | none => none
        else none)
  | .error _ => (some "Analysis temporarily unavailable.", none)

/-- The extraction (RAG training) stage of `processPostCall` (lines
283-326): attempted only when the full transcript exceeds 4 entries and
the `onLearn` collaborator is available; a found technique becomes a new
knowledge snippet, otherwise a status text is reported, and a failure
degrades to the skip message. -/
def extractionStage (n : Nat) (extraction : Except Unit Extraction)
    (hasLearn : Bool) (effectiveLeadName idStr dateStr : String) :
    Option String × Option KnowledgeSnippet :=
  if n > 4 ∧ hasLearn then
    match extraction with
    | .ok trainingData =>
        if trainingData.found ∧ trainingData.content ≠ "" then
          (some "Success! New strategy added to Knowledge Base.",
            some { id := idStr
                   category := trainingData.category
                   content := trainingData.content
                   sourceRestaurant := effectiveLeadName
                   timestamp := dateStr })
        else (some "No new strategies detected.", none)
    | .error _ => (some "Training skipped due to API timeout.", none)
  else (none, none)

/-- The post-call pipeline `processPostCall` (lines 233-329): early return
on an empty full transcript, then the two independently fault-isolated
stages.  The two remote analyses are supplied as `Except` values
(`Except.error ()` models a failed call whose exception is caught);
`hasUpdateLead` and `hasLearn` model the availability of the
`onUpdateLead` and `onLearn` collaborators; `currentLeadState` models
`latestLeadRef.current`; `effectiveLeadName`, `idStr` and `dateStr` stand
for the lead's restaurant name and the wall-clock snippet id and date. -/
def processPostCall (st : SessionState)
    (classif : Except Unit Classification) (extraction : Except Unit Extraction)
    (hasUpdateLead hasLearn : Bool) (currentLeadState : Option Lead)
    (effectiveLeadName idStr dateStr : String) : PostCallResult :=
  let fullTranscript := fullTranscriptOf st
  if fullTranscript.length = 0 then
    { summary := none, leadUpdate := none, learningStatus := none, learned := none }
  else
    { summary := (classificationStage classif hasUpdateLead currentLeadState).1,
      leadUpdate := (classificationStage classif hasUpdateLead currentLeadState).2,
      learningStatus := (extractionStage fullTranscript.length extraction hasLearn
        effectiveLeadName idStr dateStr).1,
      learned := (extractionStage fullTranscript.length extraction hasLearn
        effectiveLeadName idStr dateStr).2 }

theorem extractionStage_isSome (n : Nat) (extraction : Except Unit Extraction)
    (hasLearn : Bool) (a b c : String) :
    (extractionStage n extraction hasLearn a b c).1.isSome
      = (decide (n > 4) && hasLearn) := by
  unfold extractionStage
  by_cases h : n > 4 ∧ hasLearn = true
  · rw [if_pos h]
    obtain ⟨h4, hl⟩ := h
    cases extraction with
    | ok td =>
      by_cases hf : td.found ∧ td.content ≠ "" <;> simp [hf, h4, hl]
    | error e => simp [h4, hl]
  · rw [if_neg h]
    rcases Nat.lt_or_ge 4 n with h4 | h4
    · cases hl : hasLearn
      · simp
      · exact absurd ⟨h4, hl⟩ h
    · simp [Nat.not_lt.mpr h4]

/-- C8: in `processPostCall`, a failed classification stage replaces the
summary with the fixed degraded-service message and performs no lead
update; the extraction stage is attempted (equivalently, reports a
learning status) exactly when the full transcript has more than 4 entries
and the knowledge-sink collaborator is available; the extraction outputs
do not depend on whether classification succeeded; and a failed extraction
is reported as a status text with no snippet, never escaping the
pipeline. -/
theorem processPostCall_spec (st : SessionState)
    (classif : Except Unit Classification) (extraction : Except Unit Extraction)
    (hasUpdateLead hasLearn : Bool) (currentLeadState : Option Lead)
    (effectiveLeadName idStr dateStr : String) :
    (fullTranscriptOf st ≠ [] →
      (processPostCall st (.error ()) extraction hasUpdateLead hasLearn
          currentLeadState effectiveLeadName idStr dateStr).summary
        = some "Analysis temporarily unavailable."
      ∧ (processPostCall st (.error ()) extraction hasUpdateLead hasLearn
          currentLeadState effectiveLeadName idStr dateStr).leadUpdate = none)
    ∧ ((processPostCall st classif extraction hasUpdateLead hasLearn
          currentLeadState effectiveLeadName idStr dateStr).learningStatus.isSome
        = (decide ((fullTranscriptOf st).length > 4) && hasLearn))
    ∧ (∀ c : Classification,
        (processPostCall st (.error ()) extraction hasUpdateLead hasLearn
            currentLeadState effectiveLeadName idStr dateStr).learningStatus
          = (processPostCall st (.ok c) extraction hasUpdateLead hasLearn
              currentLeadState effectiveLeadName idStr dateStr).learningStatus
        ∧ (processPostCall st (.error ()) extraction hasUpdateLead hasLearn
            currentLeadState effectiveLeadName idStr dateStr).learned
          = (processPostCall st (.ok c) extraction hasUpdateLead hasLearn
              currentLeadState effectiveLeadName idStr dateStr).learned)
    ∧ ((fullTranscriptOf st).length > 4 → hasLearn = true →
        (processPostCall st classif (.error ()) hasUpdateLead hasLearn
            currentLeadState effectiveLeadName idStr dateStr).learningStatus
          = some "Training skipped due to API timeout."
        ∧ (processPostCall st classif (.error ()) hasUpdateLead hasLearn
            currentLeadState effectiveLeadName idStr dateStr).learned = none) := by
  by_cases h0 : (fullTranscriptOf st).length = 0
  · have hnil : fullTranscriptOf st = [] := List.length_eq_zero.mp h0
    refine ⟨fun h => absurd hnil h, ?_, fun c => ?_, fun h4 => ?_⟩
    · simp [processPostCall, hnil]
    · constructor <;> simp [processPostCall, hnil]
    · exact fun _ => absurd h4 (by omega)
  · refine ⟨fun _ => ?_, ?_, fun c => ?_, fun h4 hl => ?_⟩
    · constructor <;> (simp only [processPostCall, if_neg h0]; rfl)
    · simp only [processPostCall, if_neg h0]
      exact extractionStage_isSome _ _ _ _ _ _
    · constructor <;> simp only [processPostCall, if_neg h0]
    · have hcond : (fullTranscriptOf st).length > 4 ∧ (hasLearn = true) := ⟨h4, hl⟩
      constructor <;>
        simp only [processPostCall, if_neg h0, extractionStage, if_pos hcond]

/-- Witness for C8: a five-entry committed transcript with an available
knowledge sink and a failed extraction reports the skip status and learns
nothing. -/
theorem processPostCall_spec_witness :
    (processPostCall
        { transcripts := [⟨Role.user, "a", "t"⟩, ⟨Role.model, "b", "t"⟩,
            ⟨Role.user, "c", "t"⟩, ⟨Role.model, "d", "t"⟩, ⟨Role.user, "e", "t"⟩],
          currentInput := "", currentOutput := "" }
        (Except.error ()) (Except.error ()) true true none "R" "id" "date").learningStatus
      = some "Training skipped due to API timeout."
    ∧ (processPostCall
        { transcripts := [⟨Role.user, "a", "t"⟩, ⟨Role.model, "b", "t"⟩,
            ⟨Role.user, "c", "t"⟩, ⟨Role.model, "d", "t"⟩, ⟨Role.user, "e", "t"⟩],
          currentInput := "", currentOutput := "" }
        (Except.error ()) (Except.error ()) true true none "R" "id" "date").learned
      = none :=
  (processPostCall_spec
      { transcripts := [⟨Role.user, "a", "t"⟩, ⟨Role.model, "b", "t"⟩,
          ⟨Role.user, "c", "t"⟩, ⟨Role.model, "d", "t"⟩, ⟨Role.user, "e", "t"⟩],
        currentInput := "", currentOutput := "" }
      (Except.error ()) (Except.error ()) true true none "R" "id" "date").2.2.2
    (by decide) rfl

end HostAI
